import Mathlib

/-!
Shallow embedding of the XOR-SECUREMEM core (src/store.rs): the zeroizing
buffer family (ZeroizeArray, ZeroizeBytesArray, ZeroizeBytes) and the
encrypted in-memory cell (EncryptedMem) built on XChaCha8-Poly1305.

Bytes are modelled as Nat (a valid byte is below 256); machine words are
Nat reduced modulo 2 ^ 32 where the source wraps.  Rust panics (the
source's unwrap and the GenericArray length assertion) are modelled by the
RustResult type; randomness drawn from the CSPRNG (nonce bytes, random
buffers) is passed in as an explicit argument.
-/

namespace SecureMem

/-- Outcome of a Rust computation that may panic: `ok a` is a normal
return, `panicked` models a process-fatal panic (such as unwrap on Err or
a failed length assertion).  A panic is not a recoverable error value. -/
inductive RustResult (α : Type) where
  | ok : α → RustResult α
  | panicked : RustResult α
deriving DecidableEq, Repr

/-- Model of bytes::BytesMut.  `data` is the logical contents (the bytes
up to the current length); `extra` is the bytes that sit in the backing
allocation beyond the current length.  BytesMut::clear is documented to
remove all data while keeping the allocation: it only resets the length,
so the old contents move into `extra` and are not overwritten.
BufMut::put writes at the current length (consuming bytes of `extra`) and
advances the length.  Reserved but never-written capacity holds no
defined bytes and is not tracked. -/
structure BytesMut where
  data : List Nat
  extra : List Nat
deriving DecidableEq, Repr

/-- BytesMut::with_capacity: empty contents, fresh allocation. -/
def BytesMut.with_capacity (_capacity : Nat) : BytesMut := ⟨[], []⟩

/-- BufMut::put of a byte slice: appends to the contents, overwriting any
retained bytes beyond the old length. -/
def BytesMut.put (b : BytesMut) (value : List Nat) : BytesMut :=
  ⟨b.data ++ value, b.extra.drop value.length⟩

/-- BytesMut::clear: sets the length to zero.  The bytes that were the
contents remain in the backing allocation. -/
def BytesMut.clear (b : BytesMut) : BytesMut :=
  ⟨[], b.data ++ b.extra⟩

/-- All bytes residing in the backing allocation (contents plus retained
bytes beyond the length). -/
def BytesMut.storage (b : BytesMut) : List Nat := b.data ++ b.extra

/-- BytesMut::len: length of the logical contents. -/
def BytesMut.len (b : BytesMut) : Nat := b.data.length

/-- chacha20poly1305::Key is a 32-byte GenericArray; modelled as the list
of its bytes. -/
abbrev Key : Type := List Nat

/-- GenericArray::from_slice (as used by Key::from_slice): panics unless
the slice length equals 32. -/
def Key.from_slice (l : List Nat) : RustResult Key :=
  if l.length = 32 then .ok l else .panicked

def XNONCE_LENGTH : Nat := 24
def TAG_LENGTH : Nat := 16

/-- ZeroizeArray of const size N: a fixed array of N bytes. -/
structure ZeroizeArray (N : Nat) where
  data : List Nat
  hlen : data.length = N

/-- ZeroizeArray::new. -/
def ZeroizeArray.new {N : Nat} (value : List Nat) (h : value.length = N) :
    ZeroizeArray N := ⟨value, h⟩

/-- ZeroizeArray::zeroed. -/
def ZeroizeArray.zeroed (N : Nat) : ZeroizeArray N :=
  ⟨List.replicate N 0, by simp⟩

/-- ZeroizeArray::expose. -/
def ZeroizeArray.expose {N : Nat} (a : ZeroizeArray N) : List Nat := a.data

/-- ZeroizeArray::expose_borrowed. -/
def ZeroizeArray.expose_borrowed {N : Nat} (a : ZeroizeArray N) : List Nat :=
  a.data

/-- ZeroizeArray::chacha_key: Key::from_slice on the array's bytes;
panics when N is not 32. -/
def ZeroizeArray.chacha_key {N : Nat} (a : ZeroizeArray N) : RustResult Key :=
  Key.from_slice a.data

/-- Zeroize for ZeroizeArray: copies N zero bytes over the contents. -/
def ZeroizeArray.zeroize {N : Nat} (_a : ZeroizeArray N) : ZeroizeArray N :=
  ⟨List.replicate N 0, by simp⟩

/-- ZeroizeBytesArray of const size hint N: a BytesMut-backed buffer. -/
structure ZeroizeBytesArray (N : Nat) where
  buf : BytesMut
deriving DecidableEq, Repr

/-- ZeroizeBytesArray::new: capacity N, empty. -/
def ZeroizeBytesArray.new (N : Nat) : ZeroizeBytesArray N :=
  ⟨BytesMut.with_capacity N⟩

/-- ZeroizeBytesArray::with_additional_capacity: capacity N + extra. -/
def ZeroizeBytesArray.with_additional_capacity (N : Nat) (capacity : Nat) :
    ZeroizeBytesArray N := ⟨BytesMut.with_capacity (N + capacity)⟩

/-- ZeroizeBytesArray::set: self.0.put of the value's contents. -/
def ZeroizeBytesArray.set {N : Nat} (z : ZeroizeBytesArray N)
    (value : BytesMut) : ZeroizeBytesArray N := ⟨z.buf.put value.data⟩

/-- ZeroizeBytesArray::expose. -/
def ZeroizeBytesArray.expose {N : Nat} (z : ZeroizeBytesArray N) : BytesMut :=
  z.buf

/-- ZeroizeBytesArray::chacha_key: Key::from_slice of the contents;
panics when the current length is not 32. -/
def ZeroizeBytesArray.chacha_key {N : Nat} (z : ZeroizeBytesArray N) :
    RustResult Key := Key.from_slice z.buf.data

/-- Zeroize for ZeroizeBytesArray: self.0.clear(). -/
def ZeroizeBytesArray.zeroize {N : Nat} (z : ZeroizeBytesArray N) :
    ZeroizeBytesArray N := ⟨z.buf.clear⟩

/-- ZeroizeBytes: an unsized BytesMut-backed buffer. -/
structure ZeroizeBytes where
  buf : BytesMut
deriving DecidableEq, Repr

/-- ZeroizeBytes::new. -/
def ZeroizeBytes.new : ZeroizeBytes := ⟨⟨[], []⟩⟩

/-- ZeroizeBytes::new_with_capacity. -/
def ZeroizeBytes.new_with_capacity (capacity : Nat) : ZeroizeBytes :=
  ⟨BytesMut.with_capacity capacity⟩

/-- ZeroizeBytes::set: self.0.put of the value's contents. -/
def ZeroizeBytes.set (z : ZeroizeBytes) (value : BytesMut) : ZeroizeBytes :=
  ⟨z.buf.put value.data⟩

/-- ZeroizeBytes::expose. -/
def ZeroizeBytes.expose (z : ZeroizeBytes) : BytesMut := z.buf

/-- ZeroizeBytes::chacha_key. -/
def ZeroizeBytes.chacha_key (z : ZeroizeBytes) : RustResult Key :=
  Key.from_slice z.buf.data

/-- Zeroize for ZeroizeBytes: self.0.clear(). -/
def ZeroizeBytes.zeroize (z : ZeroizeBytes) : ZeroizeBytes := ⟨z.buf.clear⟩

/-! XChaCha8-Poly1305, as implemented dependency-side by the chacha20 and
poly1305 crates and composed by chacha20poly1305: HChaCha8 derives a
subkey from the key and the first 16 nonce bytes; the inner ChaCha8 runs
with a 12-byte nonce of four zero bytes plus the last 8 nonce bytes; the
Poly1305 key is the first 32 bytes of keystream block 0; the payload is
XORed with the keystream from block 1 on; the tag is Poly1305 over the
padded associated data (empty here), the padded ciphertext, and the two
64-bit little-endian lengths. -/

/-- Byte i of a byte list (u8 semantics: reduced modulo 256; reading past
the end of the modelled slice yields 0). -/
def byteAt (l : List Nat) (i : Nat) : Nat := l.getD i 0 % 256

/-- Little-endian 32-bit word number i of a byte list. -/
def word32 (l : List Nat) (i : Nat) : Nat :=
  byteAt l (4 * i) + 256 * byteAt l (4 * i + 1) +
    65536 * byteAt l (4 * i + 2) + 16777216 * byteAt l (4 * i + 3)

/-- Rotate a 32-bit word left by n bits. -/
def rotl32 (x n : Nat) : Nat :=
  ((x <<< n) % 4294967296) ||| (x >>> (32 - n))

/-- The ChaCha quarter round on four 32-bit words. -/
def qround (a b c d : Nat) : Nat × Nat × Nat × Nat :=
  let a := (a + b) % 4294967296
  let d := rotl32 (d ^^^ a) 16
  let c := (c + d) % 4294967296
  let b := rotl32 (b ^^^ c) 12
  let a := (a + b) % 4294967296
  let d := rotl32 (d ^^^ a) 8
  let c := (c + d) % 4294967296
  let b := rotl32 (b ^^^ c) 7
  (a, b, c, d)

/-- The 16-word ChaCha state. -/
structure ChaState where
  x0 : Nat
  x1 : Nat
  x2 : Nat
  x3 : Nat
  x4 : Nat
  x5 : Nat
  x6 : Nat
  x7 : Nat
  x8 : Nat
  x9 : Nat
  x10 : Nat
  x11 : Nat
  x12 : Nat
  x13 : Nat
  x14 : Nat
  x15 : Nat
deriving DecidableEq, Repr

/-- One ChaCha double round: four column rounds then four diagonal
rounds. -/
def dround (s : ChaState) : ChaState :=
  let (a0, b0, c0, d0) := qround s.x0 s.x4 s.x8 s.x12
  let (a1, b1, c1, d1) := qround s.x1 s.x5 s.x9 s.x13
  let (a2, b2, c2, d2) := qround s.x2 s.x6 s.x10 s.x14
  let (a3, b3, c3, d3) := qround s.x3 s.x7 s.x11 s.x15
  let (e0, f1, g2, h3) := qround a0 b1 c2 d3
  let (e1, f2, g3, h0) := qround a1 b2 c3 d0
  let (e2, f3, g0, h1) := qround a2 b3 c0 d1
  let (e3, f0, g1, h2) := qround a3 b0 c1 d2
  ⟨e0, e1, e2, e3, f0, f1, f2, f3, g0, g1, g2, g3, h0, h1, h2, h3⟩

/-- The ChaCha8 permutation: 8 rounds, that is 4 double rounds. -/
def rounds8 (s : ChaState) : ChaState := dround (dround (dround (dround s)))

/-- Initial ChaCha block state: the four constants, the eight key words,
the 32-bit block counter and the three words of the 12-byte nonce. -/
def initState (key nonce12 : List Nat) (counter : Nat) : ChaState :=
  ⟨1634760805, 857760878, 2036477234, 1797285236,
    word32 key 0, word32 key 1, word32 key 2, word32 key 3,
    word32 key 4, word32 key 5, word32 key 6, word32 key 7,
    counter % 4294967296,
    word32 nonce12 0, word32 nonce12 1, word32 nonce12 2⟩

/-- Little-endian serialization of one 32-bit word. -/
def le4 (w : Nat) : List Nat :=
  [w % 256, w / 256 % 256, w / 65536 % 256, w / 16777216 % 256]

/-- Wordwise modular addition of two ChaCha states. -/
def addStates (s t : ChaState) : ChaState :=
  ⟨(s.x0 + t.x0) % 4294967296, (s.x1 + t.x1) % 4294967296,
    (s.x2 + t.x2) % 4294967296, (s.x3 + t.x3) % 4294967296,
    (s.x4 + t.x4) % 4294967296, (s.x5 + t.x5) % 4294967296,
    (s.x6 + t.x6) % 4294967296, (s.x7 + t.x7) % 4294967296,
    (s.x8 + t.x8) % 4294967296, (s.x9 + t.x9) % 4294967296,
    (s.x10 + t.x10) % 4294967296, (s.x11 + t.x11) % 4294967296,
    (s.x12 + t.x12) % 4294967296, (s.x13 + t.x13) % 4294967296,
    (s.x14 + t.x14) % 4294967296, (s.x15 + t.x15) % 4294967296⟩

/-- Little-endian serialization of a full ChaCha state. -/
def serializeState (s : ChaState) : List Nat :=
  le4 s.x0 ++ le4 s.x1 ++ le4 s.x2 ++ le4 s.x3 ++
    le4 s.x4 ++ le4 s.x5 ++ le4 s.x6 ++ le4 s.x7 ++
    le4 s.x8 ++ le4 s.x9 ++ le4 s.x10 ++ le4 s.x11 ++
    le4 s.x12 ++ le4 s.x13 ++ le4 s.x14 ++ le4 s.x15

/-- One 64-byte ChaCha8 keystream block. -/
def chachaBlockBytes (key nonce12 : List Nat) (counter : Nat) : List Nat :=
  let s := initState key nonce12 counter
  serializeState (addStates s (rounds8 s))

/-- HChaCha8: the ChaCha8 permutation of the state built from the key and
a 16-byte nonce in the counter and nonce slots, without the final
addition; the output is words 0 to 3 and 12 to 15, serialized. -/
def hchacha8 (key nonce16 : List Nat) : List Nat :=
  let s : ChaState :=
    ⟨1634760805, 857760878, 2036477234, 1797285236,
      word32 key 0, word32 key 1, word32 key 2, word32 key 3,
      word32 key 4, word32 key 5, word32 key 6, word32 key 7,
      word32 nonce16 0, word32 nonce16 1, word32 nonce16 2, word32 nonce16 3⟩
  let t := rounds8 s
  le4 t.x0 ++ le4 t.x1 ++ le4 t.x2 ++ le4 t.x3 ++
    le4 t.x12 ++ le4 t.x13 ++ le4 t.x14 ++ le4 t.x15

/-- Concatenation of consecutive ChaCha8 keystream blocks starting at the
given counter. -/
def ksBlocks (key nonce12 : List Nat) (counter blocks : Nat) : List Nat :=
  match blocks with
  | 0 => []
  | b + 1 => chachaBlockBytes key nonce12 counter ++
      ksBlocks key nonce12 (counter + 1) b

/-- The first len bytes of ChaCha8 keystream starting at block 1 (block 0
is reserved for the Poly1305 key). -/
def chachaKeystream (key nonce12 : List Nat) (len : Nat) : List Nat :=
  List.take len (ksBlocks key nonce12 1 (len / 64 + 1))

/-- Little-endian value of a byte list. -/
def leNat : List Nat → Nat
  | [] => 0
  | b :: rest => b % 256 + 256 * leNat rest

/-- Little-endian serialization of a number into k bytes. -/
def natToLE : Nat → Nat → List Nat
  | 0, _ => []
  | k + 1, x => x % 256 :: natToLE k (x / 256)

/-- The Poly1305 prime 2 ^ 130 - 5. -/
def poly1305P : Nat := 1361129467683753853853498429727072845819

/-- Clamping of the Poly1305 r value. -/
def polyClamp (r : Nat) : Nat := r &&& 21267647620597763993911028882763415551

/-- The Poly1305 accumulation loop: consumes the message 16 bytes at a
time, adding each block (with its high padding bit) to the accumulator
and multiplying by r modulo 2 ^ 130 - 5. -/
def polyLoop (r acc : Nat) (block : List Nat) : List Nat → Nat
  | [] =>
    if block.isEmpty then acc
    else (((acc + leNat block + 2 ^ (8 * block.length)) % poly1305P) * r) %
      poly1305P
  | b :: rest =>
    if block.length = 15 then
      polyLoop r
        ((((acc + leNat (block ++ [b]) + 2 ^ 128) % poly1305P) * r) %
          poly1305P) [] rest
    else polyLoop r acc (block ++ [b]) rest

/-- The Poly1305 tag of a message under a 32-byte one-time key: r is the
clamped low half, s the high half; the tag is the truncated sum. -/
def poly1305Tag (polykey msg : List Nat) : List Nat :=
  let r := polyClamp (leNat (polykey.take 16))
  let s := leNat ((polykey.drop 16).take 16)
  natToLE 16 ((polyLoop r 0 [] msg + s) % 340282366920938463463374607431768211456)

/-- The Poly1305 message authenticated by the AEAD with empty associated
data: the ciphertext zero-padded to a 16-byte boundary, followed by the
64-bit little-endian lengths of the associated data (0) and of the
ciphertext. -/
def macData (ct : List Nat) : List Nat :=
  ct ++ List.replicate ((16 - ct.length % 16) % 16) 0 ++
    natToLE 8 0 ++ natToLE 8 ct.length

/-- The 12-byte nonce of the inner ChaCha8: four zero bytes followed by
the last 8 bytes of the 24-byte XChaCha nonce. -/
def subnonce (nonce24 : List Nat) : List Nat :=
  [0, 0, 0, 0] ++ (nonce24.drop 16).take 8

/-- The Poly1305 one-time key: the first 32 bytes of keystream block 0 of
the derived subkey and inner nonce. -/
def polykeyOf (key nonce24 : List Nat) : List Nat :=
  (chachaBlockBytes (hchacha8 key (nonce24.take 16)) (subnonce nonce24) 0).take
    32

/-- The payload keystream: ChaCha8 under the derived subkey and inner
nonce, from block 1. -/
def streamOf (key nonce24 : List Nat) (len : Nat) : List Nat :=
  chachaKeystream (hchacha8 key (nonce24.take 16)) (subnonce nonce24) len

/-- XChaCha8-Poly1305 encryption with empty associated data, as performed
by encrypt_in_place: the ciphertext is the plaintext XOR the keystream,
followed by the 16-byte Poly1305 tag. -/
def aeadEncrypt (key nonce24 pt : List Nat) : List Nat :=
  let ct := List.zipWith (fun a b => a ^^^ b) pt (streamOf key nonce24 pt.length)
  ct ++ poly1305Tag (polykeyOf key nonce24) (macData ct)

/-- The ciphertext part of a tagged buffer: everything before the
trailing 16-byte tag. -/
def ctOf (buf : List Nat) : List Nat := buf.take (buf.length - TAG_LENGTH)

/-- The tag part of a tagged buffer: its trailing 16 bytes. -/
def tagOf (buf : List Nat) : List Nat := buf.drop (buf.length - TAG_LENGTH)

/-- XChaCha8-Poly1305 decryption with empty associated data, as performed
by decrypt_in_place: fails when the buffer is shorter than the tag; splits
off the trailing 16-byte tag, recomputes the Poly1305 tag over the
ciphertext and compares; on a match returns the ciphertext XOR the
keystream, otherwise fails. -/
def aeadDecrypt (key nonce24 buf : List Nat) : Option (List Nat) :=
  if buf.length < TAG_LENGTH then none
  else if poly1305Tag (polykeyOf key nonce24) (macData (ctOf buf)) = tagOf buf
  then
    some (List.zipWith (fun a b => a ^^^ b) (ctOf buf)
      (streamOf key nonce24 (ctOf buf).length))
  else none

/-- Result::unwrap on the cipher's outcome: a normal value on Ok, a
process-fatal panic on Err. -/
def unwrapOutcome {α : Type} : Option α → RustResult α
  | some a => .ok a
  | none => .panicked

/-- EncryptedMem of const plaintext size N: the stored ciphertext and the
24-byte XChaCha nonce. -/
structure EncryptedMem (N : Nat) where
  ciphertext : ZeroizeBytesArray N
  xnonce : List Nat
deriving DecidableEq, Repr

/-- EncryptedMem::new: an empty ciphertext buffer with 16 bytes of added
capacity and a nonce drawn from the CSPRNG (the drawn 24 bytes are passed
in as the argument). -/
def EncryptedMem.new (N : Nat) (nonce : List Nat) : EncryptedMem N :=
  ⟨ZeroizeBytesArray.with_additional_capacity N 16, nonce⟩

/-- EncryptedMem::new_with_added_capacity: like new with a caller-chosen
amount of added ciphertext capacity. -/
def EncryptedMem.new_with_added_capacity (N : Nat) (capacity : Nat)
    (nonce : List Nat) : EncryptedMem N :=
  ⟨ZeroizeBytesArray.with_additional_capacity N capacity, nonce⟩

/-- In-place AEAD encryption of a BytesMut buffer, as done by
encrypt_in_place on the aead Buffer: the contents are replaced by
ciphertext plus tag (growing by TAG_LENGTH bytes).  This operation cannot
fail on a growable BytesMut, so the source's unwrap always succeeds. -/
def BytesMut.encrypt_in_place (key nonce24 : List Nat) (b : BytesMut) :
    BytesMut := ⟨aeadEncrypt key nonce24 b.data, b.extra.drop TAG_LENGTH⟩

/-- EncryptedMem::encrypt: copies the plaintext into a fresh BytesMut,
encrypts it in place under the key and the instance's own nonce, and
stores it through ZeroizeBytesArray::set into a fresh buffer, replacing
the ciphertext field; the nonce field is not assigned. -/
def EncryptedMem.encrypt {N : Nat} (em : EncryptedMem N)
    (plaintext : ZeroizeArray N) (key : Key) : EncryptedMem N :=
  let buffer :=
    ((BytesMut.with_capacity (N + TAG_LENGTH)).put
        plaintext.expose_borrowed).encrypt_in_place key em.xnonce
  let ct := (ZeroizeBytesArray.with_additional_capacity N 16).set buffer
  { em with ciphertext := ct }

/-- EncryptedMem::decrypt: copies the stored ciphertext into a fresh
BytesMut, decrypts it in place under the key and the instance's nonce and
unwraps the outcome — a cipher error (short buffer or tag mismatch) makes
the unwrap panic. -/
def EncryptedMem.decrypt {N : Nat} (em : EncryptedMem N) (key : Key) :
    RustResult (List Nat) :=
  let buffer := (BytesMut.with_capacity (N + TAG_LENGTH)).put
    em.ciphertext.expose.data
  unwrapOutcome (aeadDecrypt key em.xnonce buffer.data)

/-! Concrete instances used for tamper-detection witnesses: a one-byte
secret encrypted under the all-zero key with the all-zero drawn nonce,
then tampered by flipping the lowest bit of the first ciphertext byte. -/

/-- A concrete 32-byte key of all zero bytes. -/
def key0 : Key := List.replicate 32 0

/-- A concrete drawn nonce of 24 zero bytes. -/
def nonce0 : List Nat := List.replicate 24 0

/-- A freshly constructed one-byte cell after encrypting the plaintext
byte 7 under key0. -/
def em0 : EncryptedMem 1 :=
  (EncryptedMem.new 1 nonce0).encrypt (ZeroizeArray.new [7] rfl) key0

/-- Flips the lowest bit of the first byte of a byte list. -/
def flipFirstBit : List Nat → List Nat
  | [] => []
  | b :: rest => (b ^^^ 1) :: rest

/-- em0 with a single bit flipped in its stored ciphertext. -/
def tamperedSecret : EncryptedMem 1 :=
  { em0 with
    ciphertext :=
      ⟨⟨flipFirstBit em0.ciphertext.buf.data, em0.ciphertext.buf.extra⟩⟩ }

/-- The ciphertext part of the tampered stored buffer. -/
def tamperCt : List Nat := [241]

/-- The tag part of the tampered stored buffer (the tag em0's encryption
produced, which no longer matches the flipped ciphertext). -/
def tamperTag : List Nat :=
  [20, 193, 9, 99, 87, 4, 39, 49, 49, 40, 61, 27, 17, 228, 117, 244]

/-! Helper lemmas about the cipher embedding. -/

theorem chachaBlockBytes_length (key nonce12 : List Nat) (counter : Nat) :
    (chachaBlockBytes key nonce12 counter).length = 64 := by
  simp [chachaBlockBytes, serializeState, le4]

theorem ksBlocks_length (key nonce12 : List Nat) (counter blocks : Nat) :
    (ksBlocks key nonce12 counter blocks).length = blocks * 64 := by
  induction blocks generalizing counter with
  | zero => rfl
  | succ b ih => simp [ksBlocks, chachaBlockBytes_length, ih]; omega

theorem chachaKeystream_length (key nonce12 : List Nat) (len : Nat) :
    (chachaKeystream key nonce12 len).length = len := by
  simp [chachaKeystream, List.length_take, ksBlocks_length]
  omega

theorem streamOf_length (key nonce24 : List Nat) (len : Nat) :
    (streamOf key nonce24 len).length = len := by
  simp [streamOf, chachaKeystream_length]

theorem natToLE_length (k x : Nat) : (natToLE k x).length = k := by
  induction k generalizing x with
  | zero => rfl
  | succ k ih => simp [natToLE, ih]

theorem poly1305Tag_length (polykey msg : List Nat) :
    (poly1305Tag polykey msg).length = 16 := by
  simp [poly1305Tag, natToLE_length]

theorem ctOf_append (ct tag : List Nat) (h16 : tag.length = 16) :
    ctOf (ct ++ tag) = ct := by
  unfold ctOf
  have h : (ct ++ tag).length - TAG_LENGTH = ct.length := by
    simp only [List.length_append, h16, TAG_LENGTH]
    omega
  rw [h, List.take_left]

theorem tagOf_append (ct tag : List Nat) (h16 : tag.length = 16) :
    tagOf (ct ++ tag) = tag := by
  unfold tagOf
  have h : (ct ++ tag).length - TAG_LENGTH = ct.length := by
    simp only [List.length_append, h16, TAG_LENGTH]
    omega
  rw [h, List.drop_left]

theorem zipWith_xor_cancel : ∀ (l ks : List Nat), l.length ≤ ks.length →
    List.zipWith (fun a b => a ^^^ b)
      (List.zipWith (fun a b => a ^^^ b) l ks) ks = l
  | [], _, _ => by simp
  | a :: l, [], h => by simp at h
  | a :: l, k :: ks, h => by
    simp only [List.zipWith]
    rw [zipWith_xor_cancel l ks (by simpa using h)]
    simp [Nat.xor_cancel_right]

theorem aeadEncrypt_length (key nonce24 pt : List Nat) :
    (aeadEncrypt key nonce24 pt).length = pt.length + TAG_LENGTH := by
  simp [aeadEncrypt, List.length_zipWith, streamOf_length, poly1305Tag_length,
    TAG_LENGTH]

theorem aeadDecrypt_append_eq (key nonce24 ct tag : List Nat)
    (h16 : tag.length = 16)
    (hmac : poly1305Tag (polykeyOf key nonce24) (macData ct) = tag) :
    aeadDecrypt key nonce24 (ct ++ tag) =
      some (List.zipWith (fun a b => a ^^^ b) ct
        (streamOf key nonce24 ct.length)) := by
  have h1 : ¬ ((ct ++ tag).length < TAG_LENGTH) := by
    simp only [List.length_append, h16, TAG_LENGTH]
    omega
  have hct : (ctOf (ct ++ tag)).length = ct.length := by
    rw [ctOf_append ct tag h16]
  unfold aeadDecrypt
  rw [ctOf_append ct tag h16, tagOf_append ct tag h16, if_neg h1, if_pos hmac]

theorem aeadDecrypt_append_ne (key nonce24 ct tag : List Nat)
    (h16 : tag.length = 16)
    (hmac : poly1305Tag (polykeyOf key nonce24) (macData ct) ≠ tag) :
    aeadDecrypt key nonce24 (ct ++ tag) = none := by
  have h1 : ¬ ((ct ++ tag).length < TAG_LENGTH) := by
    simp only [List.length_append, h16, TAG_LENGTH]
    omega
  unfold aeadDecrypt
  rw [ctOf_append ct tag h16, tagOf_append ct tag h16, if_neg h1, if_neg hmac]

theorem aead_roundtrip (key nonce24 pt : List Nat) :
    aeadDecrypt key nonce24 (aeadEncrypt key nonce24 pt) = some pt := by
  unfold aeadEncrypt
  rw [aeadDecrypt_append_eq key nonce24 _ _ (poly1305Tag_length _ _) rfl]
  rw [show (List.zipWith (fun a b => a ^^^ b) pt
      (streamOf key nonce24 pt.length)).length = pt.length from by
    simp [List.length_zipWith, streamOf_length]]
  rw [zipWith_xor_cancel pt _ (by simp [streamOf_length])]

/-! The claim theorems. -/

/-- C1: for every plaintext of length N and every key, decrypting an
EncryptedMem immediately after encrypting under the same key and the
instance's own nonce returns exactly the original plaintext bytes. -/
theorem encrypt_decrypt_roundtrip {N : Nat} (em : EncryptedMem N)
    (pt : ZeroizeArray N) (key : Key) :
    (em.encrypt pt key).decrypt key = .ok pt.data := by
  show unwrapOutcome
    (aeadDecrypt key em.xnonce (aeadEncrypt key em.xnonce pt.data)) =
    .ok pt.data
  rw [aead_roundtrip]
  rfl

/-- C2 (amended): when the stored buffer's trailing 16-byte tag does not
match the Poly1305 tag recomputed over the stored ciphertext under the
supplied key and the instance's nonce, decrypt panics via unwrap — it
does not return a recoverable error and never returns plaintext. -/
theorem decrypt_tag_mismatch_panics {N : Nat} (em : EncryptedMem N)
    (key : Key) (ct tag : List Nat)
    (hdata : em.ciphertext.buf.data = ct ++ tag) (h16 : tag.length = 16)
    (hmac : poly1305Tag (polykeyOf key em.xnonce) (macData ct) ≠ tag) :
    em.decrypt key = .panicked := by
  show unwrapOutcome (aeadDecrypt key em.xnonce em.ciphertext.buf.data) =
    .panicked
  rw [hdata, aeadDecrypt_append_ne key em.xnonce ct tag h16 hmac]
  rfl

/-- C2 witness: the concrete one-bit-flipped cell satisfies the
hypotheses of the amended theorem and its decrypt panics. -/
theorem decrypt_tag_mismatch_witness :
    tamperedSecret.ciphertext.buf.data = tamperCt ++ tamperTag ∧
    tamperTag.length = 16 ∧
    poly1305Tag (polykeyOf key0 tamperedSecret.xnonce) (macData tamperCt) ≠
      tamperTag ∧
    tamperedSecret.decrypt key0 = .panicked :=
  ⟨by decide, by decide, by decide,
    decrypt_tag_mismatch_panics tamperedSecret key0 tamperCt tamperTag
      (by decide) (by decide) (by decide)⟩

/-- C2 counterexample: flipping a single bit of a stored ciphertext makes
decrypt terminate with a panic, not with a recoverable error result as
the claim states. -/
theorem decrypt_tamper_panics_cex :
    tamperedSecret.decrypt key0 = RustResult.panicked := by decide

/-- C3: the nonce is set exactly once, at construction (new or
new_with_added_capacity), to the bytes drawn there, and encrypt leaves
the nonce field unchanged, so repeated encrypt calls reuse it. -/
theorem nonce_generated_once_only {N : Nat} (nonce : List Nat) (cap : Nat)
    (em : EncryptedMem N) (pt : ZeroizeArray N) (key : Key) :
    (EncryptedMem.new N nonce).xnonce = nonce ∧
    (EncryptedMem.new_with_added_capacity N cap nonce).xnonce = nonce ∧
    (em.encrypt pt key).xnonce = em.xnonce :=
  ⟨rfl, rfl, rfl⟩

/-- C4: after every successful encrypt on an EncryptedMem of size N the
stored ciphertext buffer holds exactly N + 16 bytes. -/
theorem encrypt_ciphertext_length {N : Nat} (em : EncryptedMem N)
    (pt : ZeroizeArray N) (key : Key) :
    ((em.encrypt pt key).ciphertext.expose.data).length = N + TAG_LENGTH := by
  show (aeadEncrypt key em.xnonce pt.data).length = N + TAG_LENGTH
  rw [aeadEncrypt_length, pt.hlen]

/-- C5 (amended): set appends the given bytes to the buffer's current
contents instead of replacing them — afterwards the contents are the old
contents followed by the new bytes (hence exactly the new bytes only when
the buffer was empty), and the previous contents are retained rather than
zeroed. -/
theorem set_appends_not_replaces (N : Nat) (zb : ZeroizeBytesArray N)
    (z : ZeroizeBytes) (v w : BytesMut) :
    (zb.set v).expose.data = zb.expose.data ++ v.data ∧
    (z.set w).expose.data = z.expose.data ++ w.data :=
  ⟨rfl, rfl⟩

/-- C5 counterexample: on a buffer holding byte 1, set of byte 2 leaves
contents 1, 2 — not the contents 2 the claim requires. -/
theorem set_not_replace_cex :
    ((ZeroizeBytes.mk ⟨[1], []⟩).set ⟨[2], []⟩).expose.data ≠ [2] := by decide

/-- C6 (code bug): zeroize on the BytesMut-backed buffers only clears the
length; on a ZeroizeBytes or ZeroizeBytesArray holding byte 5, the byte 5
still resides in the backing storage afterwards instead of being
overwritten with zero. -/
theorem zeroize_clear_retains_storage :
    ((ZeroizeBytes.mk ⟨[5], []⟩).zeroize).expose.storage = [5] ∧
    (((⟨⟨[5], []⟩⟩ : ZeroizeBytesArray 4)).zeroize).expose.storage = [5] ∧
    (5 : Nat) ≠ 0 :=
  ⟨rfl, rfl, by decide⟩

/-- C7: the zeroize operation is idempotent on all three buffer kinds:
applying it twice leaves exactly the state applying it once leaves. -/
theorem zeroize_idempotent (N : Nat) (a : ZeroizeArray N)
    (zb : ZeroizeBytesArray N) (z : ZeroizeBytes) :
    a.zeroize.zeroize = a.zeroize ∧
    zb.zeroize.zeroize = zb.zeroize ∧
    z.zeroize.zeroize = z.zeroize :=
  ⟨rfl, rfl, rfl⟩

/-- C8 (amended): requesting a key view from a buffer whose current
length is not 32 fails by panicking (the GenericArray length assertion),
not by returning a recoverable InvalidKeyLength error. -/
theorem chacha_key_panics_on_bad_length (N : Nat) (a : ZeroizeArray N)
    (zb : ZeroizeBytesArray N) :
    (N ≠ 32 → a.chacha_key = .panicked) ∧
    ((zb.expose).len ≠ 32 → zb.chacha_key = .panicked) := by
  constructor
  · intro h
    unfold ZeroizeArray.chacha_key Key.from_slice
    rw [a.hlen, if_neg h]
  · intro h
    simp only [ZeroizeBytesArray.expose, BytesMut.len] at h
    unfold ZeroizeBytesArray.chacha_key Key.from_slice
    rw [if_neg h]

/-- C8 witness: a length-1 fixed array and a length-2 dynamic buffer both
panic on chacha_key. -/
theorem chacha_key_panics_witness :
    ((1 : Nat) ≠ 32 ∧ (ZeroizeArray.new (N := 1) [9] rfl).chacha_key =
      .panicked) ∧
    ((ZeroizeBytesArray.expose (⟨⟨[1, 2], []⟩⟩ : ZeroizeBytesArray 1)).len ≠
        32 ∧
      (⟨⟨[1, 2], []⟩⟩ : ZeroizeBytesArray 1).chacha_key = .panicked) :=
  ⟨⟨by decide,
      (chacha_key_panics_on_bad_length 1 (ZeroizeArray.new [9] rfl)
        ⟨⟨[1, 2], []⟩⟩).1 (by decide)⟩,
    ⟨by decide,
      (chacha_key_panics_on_bad_length 1 (ZeroizeArray.new [9] rfl)
        ⟨⟨[1, 2], []⟩⟩).2 (by decide)⟩⟩

/-- C8 counterexample: a buffer of length 1 makes chacha_key panic, not
return a recoverable InvalidKeyLength error as the claim states. -/
theorem chacha_key_not_error_cex :
    (ZeroizeArray.new (N := 1) [9] rfl).chacha_key = RustResult.panicked := by
  decide

/-- C9: encryption is a deterministic function of plaintext, key and
nonce — two cells holding identical nonces produce identical ciphertext
bytes for the same plaintext and key. -/
theorem encrypt_deterministic {N : Nat} (em1 em2 : EncryptedMem N)
    (pt : ZeroizeArray N) (key : Key) (h : em1.xnonce = em2.xnonce) :
    (em1.encrypt pt key).ciphertext.expose.data =
      (em2.encrypt pt key).ciphertext.expose.data := by
  show aeadEncrypt key em1.xnonce pt.data = aeadEncrypt key em2.xnonce pt.data
  rw [h]

/-- C9 witness: two concretely constructed cells sharing a nonce encrypt
the byte 9 to identical ciphertext. -/
theorem encrypt_deterministic_witness :
    (EncryptedMem.new 1 (List.replicate 24 3)).xnonce =
      (EncryptedMem.new_with_added_capacity 1 5 (List.replicate 24 3)).xnonce ∧
    ((EncryptedMem.new 1 (List.replicate 24 3)).encrypt
        (ZeroizeArray.new [9] rfl) (List.replicate 32 1)).ciphertext.expose.data
      = ((EncryptedMem.new_with_added_capacity 1 5
          (List.replicate 24 3)).encrypt (ZeroizeArray.new [9] rfl)
          (List.replicate 32 1)).ciphertext.expose.data :=
  ⟨rfl,
    encrypt_deterministic _ _ (ZeroizeArray.new [9] rfl)
      (List.replicate 32 1) rfl⟩

/-- C10: decrypt on a freshly constructed cell, on which encrypt was
never called, operates on the empty ciphertext buffer, whose length 0 is
below the 16-byte tag length, so the cipher fails and the unwrap panics
rather than returning successfully. -/
theorem decrypt_before_encrypt_panics (N : Nat) (nonce : List Nat)
    (key : Key) : (EncryptedMem.new N nonce).decrypt key = .panicked := rfl

end SecureMem
